import Mathlib

/-!
# Verification of the `inception` document store

A shallow embedding of `src/__init__.py`: a small no-SQL document store
persisting JSON documents into a single relational table
`(id integer primary key autoincrement, collection text, document text)`,
backed by sqlite3 (class `Database`) or MySQL (class `MySQLDatabase`).

Python values that can appear inside a document are modelled by `Value`;
the serialized blob column is modelled by the parsed JSON value it holds
(the textual `json.dumps`/`json.loads` round trip is the identity on the
JSON-representable fragment and is elided).
-/

set_option autoImplicit false

/-- A Python value that can appear inside a document: the JSON-representable
constructors (`null`, `bool`, `int`, `str`, `list`, `dict`), plus
`datetime.datetime` objects (`dt`, carried by their `isoformat()` rendering)
and arbitrary other objects with no JSON encoding (`other`, carried by an
opaque tag). -/
inductive Value where
  | null : Value
  | bool (b : Bool) : Value
  | int (n : Int) : Value
  | str (s : String) : Value
  | list (xs : List Value) : Value
  | dict (fields : List (String × Value)) : Value
  | dt (iso : String) : Value
  | other (tag : String) : Value

/-- A Python dictionary, as the association list of its items in insertion
order (Python dictionaries have unique keys). -/
abbrev Doc := List (String × Value)

/-- Python truthiness (`if x:`) for the values modelled by `Value`.
Arbitrary objects (`dt`, `other`) are truthy by default. -/
def truthy : Value → Bool
  | .null => false
  | .bool b => b
  | .int n => n != 0
  | .str s => s ≠ ""
  | .list xs => !xs.isEmpty
  | .dict fs => !fs.isEmpty
  | .dt _ => true
  | .other _ => true

/-- Python `int(x)` as used on `document['_id']`: identity on ints,
`True`/`False` become `1`/`0`, numeric strings are parsed; any other
value raises, modelled as `none`. -/
def pyInt : Value → Option Int
  | .int n => some n
  | .bool b => some (if b then 1 else 0)
  | .str s => s.trim.toInt?
  | _ => none

/-- `inception_serialise` (lines 90-92): the `default=` hook handed to
`json.dumps`. A `datetime` is encoded as its ISO-8601 string; for every
other unsupported object the function falls off the end and returns
`None` (modelled as `none`). -/
def inception_serialise : Value → Option Value
  | .dt iso => some (.str iso)
  | _ => none

mutual
/-- `json.dumps(·, default=inception_serialise)` followed by `json.loads`,
i.e. the value actually stored in (and later parsed back from) the
`document` column. JSON-native values pass through; for an unsupported
value the encoder serializes whatever `inception_serialise` returns — an
ISO string for datetimes, and `None` (JSON `null`) for everything else,
since the hook has no `raise` branch. -/
def dumpValue : Value → Value
  | .null => .null
  | .bool b => .bool b
  | .int n => .int n
  | .str s => .str s
  | .list xs => .list (dumpList xs)
  | .dict fs => .dict (dumpDict fs)
  | .dt iso => (inception_serialise (.dt iso)).getD .null
  | .other tag => (inception_serialise (.other tag)).getD .null

/-- `dumpValue` element-wise on a JSON array. -/
def dumpList : List Value → List Value
  | [] => []
  | v :: vs => dumpValue v :: dumpList vs

/-- `dumpValue` value-wise on the items of a JSON object. -/
def dumpDict : List (String × Value) → List (String × Value)
  | [] => []
  | (k, v) :: fs => (k, dumpValue v) :: dumpDict fs
end

/-- Python dictionary item assignment `d[key] = v`: replaces the value at
`key` in place if the key is present, otherwise appends a new item. -/
def setKey : Doc → String → Value → Doc
  | [], key, v => [(key, v)]
  | (k, w) :: fs, key, v =>
      if k = key then (key, v) :: fs else (k, w) :: setKey fs key v

/-- The numeric view Python uses for `==`: `bool` is a subclass of `int`,
so `True == 1` and `False == 0`. -/
def pyNum : Value → Option Int
  | .bool b => some (if b then 1 else 0)
  | .int n => some n
  | _ => none

mutual
/-- Python `==` on the values modelled by `Value`: numeric cross-type
equality between `bool` and `int`, element-wise equality on lists,
order-insensitive equality on dictionaries, value equality on datetimes,
and identity (modelled by tag equality) on other objects. -/
def pyEq : Value → Value → Bool
  | a, b =>
    match pyNum a, pyNum b with
    | some x, some y => x == y
    | _, _ =>
      match a, b with
      | .null, .null => true
      | .str s, .str t => s == t
      | .list xs, .list ys => pyEqList xs ys
      | .dict xs, .dict ys => xs.length == ys.length && pyEqItems xs ys
      | .dt s, .dt t => s == t
      | .other s, .other t => s == t
      | _, _ => false

/-- Python `==` on lists: same length, pairwise equal. -/
def pyEqList : List Value → List Value → Bool
  | [], [] => true
  | x :: xs, y :: ys => pyEq x y && pyEqList xs ys
  | _, _ => false

/-- Every item of the first dictionary is present in the second with a
`pyEq`-equal value (with equal lengths and unique keys this is Python's
order-insensitive dictionary equality). -/
def pyEqItems : List (String × Value) → List (String × Value) → Bool
  | [], _ => true
  | (k, v) :: fs, b =>
      (match b.lookup k with
       | some w => pyEq v w
       | none => false) && pyEqItems fs b
end

/-- A matcher in a query dictionary: either a literal value to
equality-match, or a callable used as a unary predicate
(`callable(flter)` distinguishes the two in the source). -/
inductive Matcher where
  | lit (v : Value) : Matcher
  | pred (p : Value → Bool) : Matcher

/-- A query dictionary: field name to matcher. -/
abbrev Query := List (String × Matcher)

/-- Inner helper `filter_result` of `filter_results` (lines 79-87): a
document passes when every `(field, flter)` item of the query passes —
a callable is invoked on `result.get(field, '')`, any other value is
compared with `result.get(field, '') == flter`. -/
def filter_result (result : Doc) (filters : Query) : Bool :=
  filters.all fun item =>
    match item.2 with
    | .pred p => p ((result.lookup item.1).getD (.str ""))
    | .lit v => pyEq ((result.lookup item.1).getD (.str "")) v

/-- `filter_results` (lines 78-88): keep the results passing every filter,
in their original order. -/
def filter_results (results : List Doc) (filters : Query) : List Doc :=
  results.filter fun result => filter_result result filters

/-- One row of the `inception` table: `(id, collection, document)`, the
blob column held as the JSON value it parses to. -/
structure Row where
  id : Int
  collection : String
  document : Doc

/-- The state of the backing table. `rows` is kept in rowid order (the
scan order a `select` without `order by` returns for a rowid table);
`nextId` models the `autoincrement` sequence (`sqlite_sequence`), the id
the engine hands to the next id-less insert. -/
structure Store where
  rows : List Row
  nextId : Int

/-- A freshly `_dbinit()`-ed database: no rows, ids start at 1. -/
def Store.empty : Store := ⟨[], 1⟩

/-- Invariant of every reachable store: all existing row ids are below the
autoincrement sequence value. -/
def Store.wf (s : Store) : Prop := ∀ r ∈ s.rows, r.id < s.nextId

/-- Insert a row keeping the list in ascending rowid order (the position a
new rowid takes in the table's scan order). -/
def insertById : List Row → Row → List Row
  | [], r => [r]
  | x :: xs, r => if r.id < x.id then r :: x :: xs else x :: insertById xs r

/-- `insert or replace` with an explicit id: overwrite the row carrying
that id in place if it exists, otherwise insert it. -/
def upsertRow (rows : List Row) (r : Row) : List Row :=
  if rows.any fun x => x.id = r.id then
    rows.map fun x => if x.id = r.id then r else x
  else insertById rows r

/-- `inception_factory` (lines 72-76): decode a raw row into a document —
parse the blob, then inject `_id` from the id column and `_collection`
from the collection column (overwriting any copies inside the blob). -/
def inception_factory (row : Row) : Doc :=
  setKey (setKey row.document "_id" (.int row.id)) "_collection" (.str row.collection)

/-- `Database.get_by_id` (lines 148-154): `select * where id = ?`,
`fetchone()` — the first row with that id in scan order, decoded by the
connection's row factory, or `None` when absent. -/
def Database.get_by_id (s : Store) (id : Int) : Option Doc :=
  (s.rows.find? fun r => r.id = id).map inception_factory

/-- `Database.get` (lines 156-172): fetch every row, or only one
collection's rows when `collection` is truthy (`None` and `''` both fall
to `select *`); decode each through the row factory; when `query` is
truthy (a non-empty dictionary) keep only the documents passing
`filter_results`. -/
def Database.get (s : Store) (collection : String) (query : Query) : List Doc :=
  let rows := if collection ≠ "" then s.rows.filter fun r => r.collection = collection
              else s.rows
  let results := rows.map inception_factory
  if query.isEmpty then results else filter_results results query

/-- Lines 175-177 (and 198-200): `collection = document.get('_collection',
None) or collection` followed by `if not collection: collection = ''`.
The fallback is an arbitrary Python value once loop-carried, so it is
taken as a `Value`. -/
def resolveCollectionV (document : Doc) (collection : Value) : Value :=
  let c := match document.lookup "_collection" with
           | some v => if truthy v then v else collection
           | none => collection
  if truthy c then c else .str ""

/-- How the sqlite3 driver binds a Python value into the `collection`
text column: strings pass through, ints and bools arrive via the
column's text affinity, a datetime goes through the default ISO adapter;
`None` violates the `not null` constraint and containers or other
objects are unsupported bind parameters. -/
def sqliteText : Value → Except String String
  | .str s => .ok s
  | .int n => .ok (toString n)
  | .bool b => .ok (if b then "1" else "0")
  | .dt iso => .ok iso
  | .null => .error "IntegrityError: NOT NULL constraint failed"
  | _ => .error "InterfaceError: unsupported bind parameter"

/-- Executing `SQL_INSERT_WITH_ID` (`insert or replace ... (id, collection,
document) values (?, ?, ?)`) and committing: replace-or-insert at the
given id; an explicit id also pushes the autoincrement sequence past it. -/
def execInsertWithId (s : Store) (id : Int) (collection : Value) (blob : Doc) :
    Except String Store :=
  match sqliteText collection with
  | .error e => .error e
  | .ok ct => .ok ⟨upsertRow s.rows ⟨id, ct, blob⟩, max s.nextId (id + 1)⟩

/-- Executing `SQL_INSERT_WITHOUT_ID` (`insert or replace ... (collection,
document) values (?, ?)`) and committing: the engine assigns the next
sequence id. -/
def execInsertWithoutId (s : Store) (collection : Value) (blob : Doc) :
    Except String Store :=
  match sqliteText collection with
  | .error e => .error e
  | .ok ct => .ok ⟨insertById s.rows ⟨s.nextId, ct, blob⟩, s.nextId + 1⟩

/-- `Database.save` (lines 174-191): resolve the effective collection
(in-document truthy value, else the argument, else `''`; the `collection`
parameter's `None` default and `''` behave identically and are both
modelled by `""`); take `docid` from `document.get('_id', None)`; when
`docid` is truthy run the explicit-id upsert with `int(docid)`, otherwise
the id-less insert. The blob bound into the `document` column is
`json.dumps(document, default=inception_serialise)` of the whole
dictionary. The caller's dictionary is threaded through unchanged (the
body only ever reads it) and handed back with the new store. -/
def Database.save (s : Store) (document : Doc) (collection : String) :
    Except String (Store × Doc) :=
  let coll := resolveCollectionV document (.str collection)
  let step : Except String Store :=
    match document.lookup "_id" with
    | some v =>
        if truthy v then
          match pyInt v with
          | some i => execInsertWithId s i coll (dumpDict document)
          | none => .error "TypeError: int() argument has no integer value"
        else execInsertWithoutId s coll (dumpDict document)
    | none => execInsertWithoutId s coll (dumpDict document)
  match step with
  | .error e => .error e
  | .ok s' => .ok (s', document)

/-- The loop body of `Database.save_all` (lines 197-210), threading the
store, the loop-carried `collection` variable and the visited documents.
All statements share one cursor and a single `commit()` runs after the
loop, so an error inside the loop abandons the whole uncommitted batch
(no partial store is kept). Line 205 binds `docid` without the `int(...)`
of line 182; for the integer-valued ids the column accepts this is the
same value, modelled by `pyInt` as well. -/
def saveAllLoop (s : Store) (collection : Value) :
    List Doc → Except String (Store × List Doc)
  | [] => .ok (s, [])
  | document :: rest =>
      let coll := resolveCollectionV document collection
      let step : Except String Store :=
        match document.lookup "_id" with
        | some v =>
            if truthy v then
              match pyInt v with
              | some i => execInsertWithId s i coll (dumpDict document)
              | none => .error "InterfaceError: unsupported bind parameter"
            else execInsertWithoutId s coll (dumpDict document)
        | none => execInsertWithoutId s coll (dumpDict document)
      match step with
      | .error e => .error e
      | .ok s' =>
          match saveAllLoop s' coll rest with
          | .error e => .error e
          | .ok (s'', docs) => .ok (s'', document :: docs)

/-- `Database.save_all` (lines 193-213): run the loop with the `collection`
argument as initial fallback (its `None` default modelled by `""`). -/
def Database.save_all (s : Store) (documents : List Doc) (collection : String) :
    Except String (Store × List Doc) :=
  saveAllLoop s (.str collection) documents

/-- `Database.delete_by_id` (lines 215-220): `delete where id = ?` and
commit. Deleting an absent id deletes no rows and raises nothing. -/
def Database.delete_by_id (s : Store) (id : Int) : Store :=
  ⟨s.rows.filter fun r => r.id ≠ id, s.nextId⟩

/-- `Database.delete` (lines 222-224): only when the `'_id'` key is
present (a containment test, not a truthiness test) delegate to
`delete_by_id` with `document['_id']`; the integer comparison the bound
value achieves against the id column is modelled by `pyInt` (a
non-numeric value matches no integer id, deleting nothing). -/
def Database.delete (s : Store) (document : Doc) : Store :=
  match document.lookup "_id" with
  | some v => match pyInt v with
              | some i => Database.delete_by_id s i
              | none => s
  | none => s

/-- The list comprehension of `filter_results` evaluated over raw rows
instead of decoded documents, as happens on the MySQL path: with no rows
the inner function is never invoked and the result is empty, but on the
first row `filter_result` executes `result.get(field, '')` on a plain
row tuple, which has no `get` method. -/
def filterRawResults (results : List Row) (filters : Query) :
    Except String (List Row) :=
  match results with
  | [] => .ok []
  | _ :: _ =>
      match filters with
      | [] => .ok results
      | _ :: _ => .error "AttributeError: tuple object has no attribute get"

/-- `MySQLDatabase.get` (lines 252-253): runs the inherited `Database.get`
body on a connection with no row factory, so `fetchall()` yields raw row
tuples and the query filter — when one is given — runs on those tuples;
only afterwards does the override decode each surviving row with
`inception_factory`. -/
def MySQLDatabase.get (s : Store) (collection : String) (query : Query) :
    Except String (List Doc) :=
  let rows := if collection ≠ "" then s.rows.filter fun r => r.collection = collection
              else s.rows
  let filtered := if query.isEmpty then .ok rows else filterRawResults rows query
  match filtered with
  | .error e => .error e
  | .ok rs => .ok (rs.map inception_factory)

/-- `MySQLDatabase.get_by_id` (lines 249-250): the inherited body's
`fetchone()` yields a raw tuple or `None`; the override then iterates
over that value. Iterating `None` raises, and iterating the row tuple
feeds its scalar elements to `inception_factory`, whose `row[2]`
subscript raises on the first element. -/
def MySQLDatabase.get_by_id (s : Store) (id : Int) : Except String (List Doc) :=
  match s.rows.find? fun r => r.id = id with
  | none => .error "TypeError: NoneType object is not iterable"
  | some _ => .error "TypeError: row element is not subscriptable"

/-! ## Basic lemmas about the embedding -/

theorem lookup_setKey_self (d : Doc) (k : String) (v : Value) :
    (setKey d k v).lookup k = some v := by
  induction d with
  | nil => simp [setKey]
  | cons kv fs ih =>
      obtain ⟨k₁, w⟩ := kv
      by_cases h : k₁ = k
      · simp [setKey, h]
      · simp [setKey, h, List.lookup, beq_false_of_ne (Ne.symm h), ih]

theorem lookup_setKey_ne (d : Doc) (k k' : String) (v : Value) (h : k' ≠ k) :
    (setKey d k v).lookup k' = d.lookup k' := by
  induction d with
  | nil => simp [setKey, List.lookup, beq_false_of_ne h]
  | cons kv fs ih =>
      obtain ⟨k₁, w⟩ := kv
      by_cases h₁ : k₁ = k
      · subst h₁
        simp [setKey, List.lookup, beq_false_of_ne h]
      · by_cases h₂ : k₁ = k'
        · subst h₂
          simp [setKey, h₁, List.lookup]
        · simp [setKey, h₁, List.lookup, beq_false_of_ne (Ne.symm h₂), ih]

theorem inception_factory_id (r : Row) :
    (inception_factory r).lookup "_id" = some (.int r.id) := by
  unfold inception_factory
  rw [lookup_setKey_ne _ _ _ _ (by decide), lookup_setKey_self]

theorem inception_factory_collection (r : Row) :
    (inception_factory r).lookup "_collection" = some (.str r.collection) := by
  unfold inception_factory
  rw [lookup_setKey_self]

theorem insertById_append (rows : List Row) (r : Row)
    (h : ∀ x ∈ rows, x.id < r.id) :
    insertById rows r = rows ++ [r] := by
  induction rows with
  | nil => rfl
  | cons x xs ih =>
      have hx : x.id < r.id := h x (List.mem_cons_self x xs)
      have hnot : ¬ r.id < x.id := by omega
      simp only [insertById, if_neg hnot, List.cons_append]
      exact congrArg (x :: ·) (ih fun y hy => h y (List.mem_cons_of_mem x hy))

theorem find?_insertById_self (rows : List Row) (r : Row)
    (h : ∀ x ∈ rows, x.id ≠ r.id) :
    (insertById rows r).find? (fun x => x.id = r.id) = some r := by
  induction rows with
  | nil => simp [insertById, List.find?]
  | cons x xs ih =>
      have hx : x.id ≠ r.id := h x (List.mem_cons_self x xs)
      by_cases hlt : r.id < x.id
      · simp [insertById, hlt, List.find?]
      · simp only [insertById, if_neg hlt]
        rw [List.find?_cons_of_neg _ (by simpa using hx)]
        exact ih fun y hy => h y (List.mem_cons_of_mem x hy)

theorem find?_upsertRow_self (rows : List Row) (r : Row) :
    (upsertRow rows r).find? (fun x => x.id = r.id) = some r := by
  unfold upsertRow
  by_cases hany : rows.any fun x => x.id = r.id
  · rw [if_pos hany]
    induction rows with
    | nil => simp at hany
    | cons x xs ih =>
        by_cases hx : x.id = r.id
        · simp [List.find?, hx]
        · simp only [List.map_cons, if_neg hx]
          rw [List.find?_cons_of_neg _ (by simpa using hx)]
          exact ih (by simpa [List.any_cons, hx] using hany)
  · rw [if_neg hany]
    refine find?_insertById_self rows r fun x hx => ?_
    intro hcontra
    exact hany (List.any_eq_true.mpr ⟨x, hx, by simpa using hcontra⟩)

theorem self_mem_upsertRow (rows : List Row) (r : Row) :
    r ∈ upsertRow rows r := by
  have h := find?_upsertRow_self rows r
  exact List.mem_of_find?_eq_some h

/-! ## The claims -/

/-- C1: for every `get(collection, query)` call with a non-empty query,
the result is exactly the subset of the `get(collection)` result in
which every `(field, matcher)` pair passes — a callable matcher is
invoked as a one-argument predicate on the document's value at `field`,
any other matcher must compare equal to that value, and an absent field
is replaced by the empty string first. Order follows fetch order. -/
theorem get_query_filters_fetch (s : Store) (collection : String)
    (query : Query) (hq : query ≠ []) :
    Database.get s collection query =
      (Database.get s collection []).filter fun document =>
        query.all fun item =>
          match item.2 with
          | .pred p => p ((document.lookup item.1).getD (.str ""))
          | .lit v => pyEq ((document.lookup item.1).getD (.str "")) v := by
  simp [Database.get, hq, filter_results, filter_result]

def storeC1 : Store :=
  ⟨[⟨1, "t", [("n", .int 1)]⟩, ⟨2, "t", [("n", .int 2)]⟩], 3⟩

def queryC1 : Query := [("n", Matcher.pred fun v => pyEq v (.int 2))]

theorem get_query_filters_fetch_witness :
    queryC1 ≠ [] ∧
      Database.get storeC1 "t" queryC1 =
        (Database.get storeC1 "t" []).filter fun document =>
          queryC1.all fun item =>
            match item.2 with
            | .pred p => p ((document.lookup item.1).getD (.str ""))
            | .lit v => pyEq ((document.lookup item.1).getD (.str "")) v :=
  ⟨List.cons_ne_nil _ _, get_query_filters_fetch storeC1 "t" queryC1 (List.cons_ne_nil _ _)⟩

/-- C8: `delete_by_id(id)` removes the row with that id, so `get_by_id(id)`
afterwards returns absent; a second `delete_by_id(id)` on the now-absent id
changes nothing and raises nothing; and `delete(document)` for a document
without an `'_id'` key performs no action at all. -/
theorem delete_finality (s : Store) (id : Int) (d : Doc)
    (hd : d.lookup "_id" = none) :
    Database.get_by_id (Database.delete_by_id s id) id = none ∧
      Database.delete_by_id (Database.delete_by_id s id) id =
        Database.delete_by_id s id ∧
      Database.delete s d = s := by
  refine ⟨?_, ?_, ?_⟩
  · simp only [Database.get_by_id, Database.delete_by_id]
    have hnone : (s.rows.filter fun r => r.id ≠ id).find? (fun r => r.id = id) = none := by
      rw [List.find?_eq_none]
      intro x hx
      simp only [List.mem_filter] at hx
      simpa using hx.2
    rw [hnone]
    rfl
  · simp [Database.delete_by_id, List.filter_filter]
  · simp [Database.delete, hd]

theorem delete_finality_witness :
    ([("x", Value.int 7)] : Doc).lookup "_id" = none ∧
      (Database.get_by_id (Database.delete_by_id ⟨[⟨4, "c", []⟩], 5⟩ 4) 4 = none ∧
        Database.delete_by_id (Database.delete_by_id ⟨[⟨4, "c", []⟩], 5⟩ 4) 4 =
          Database.delete_by_id ⟨[⟨4, "c", []⟩], 5⟩ 4 ∧
        Database.delete ⟨[⟨4, "c", []⟩], 5⟩ [("x", Value.int 7)] = ⟨[⟨4, "c", []⟩], 5⟩) :=
  ⟨rfl, delete_finality ⟨[⟨4, "c", []⟩], 5⟩ 4 [("x", Value.int 7)] rfl⟩

theorem resolveCollectionV_compatible (d : Doc) (C : String)
    (h : d.lookup "_collection" = none ∨ d.lookup "_collection" = some (.str C)) :
    resolveCollectionV d (.str C) = .str C := by
  unfold resolveCollectionV
  rcases h with h | h <;> rw [h] <;> by_cases hC : C = "" <;> simp [truthy, hC]

/-- C2: saving a document `D` without an `'_id'` key into collection `C`
on a fresh database and reading the collection back returns exactly one
document: `D` with an injected `'_id'` that is a positive integer (here
`1`) and an injected `'_collection'` equal to `C`; moreover the read
path always (re)injects `'_id'` and `'_collection'` into the decoded
blob from the row's own columns, whether or not the blob carried them. -/
theorem save_get_round_trip (D : Doc) (C : String)
    (hid : D.lookup "_id" = none)
    (hcol : D.lookup "_collection" = none ∨ D.lookup "_collection" = some (.str C))
    (hjson : dumpDict D = D) :
    Database.save Store.empty D C = .ok (⟨[⟨1, C, D⟩], 2⟩, D) ∧
      Database.get ⟨[⟨1, C, D⟩], 2⟩ C [] =
        [setKey (setKey D "_id" (.int 1)) "_collection" (.str C)] ∧
      (0 : Int) < 1 ∧
      (∀ r : Row, (inception_factory r).lookup "_id" = some (.int r.id) ∧
        (inception_factory r).lookup "_collection" = some (.str r.collection)) := by
  refine ⟨?_, ?_, by norm_num, fun r => ⟨inception_factory_id r, inception_factory_collection r⟩⟩
  · simp only [Database.save, hid, resolveCollectionV_compatible D C hcol,
      execInsertWithoutId, sqliteText, Store.empty, insertById, hjson]
    rfl
  · by_cases hC : C = "" <;>
      simp [Database.get, hC, inception_factory]

theorem save_get_round_trip_witness :
    (([("name", Value.str "One")] : Doc).lookup "_id" = none ∧
      dumpDict [("name", Value.str "One")] = [("name", Value.str "One")]) ∧
    Database.save Store.empty [("name", Value.str "One")] "test" =
        .ok (⟨[⟨1, "test", [("name", Value.str "One")]⟩], 2⟩, [("name", Value.str "One")]) ∧
      Database.get ⟨[⟨1, "test", [("name", Value.str "One")]⟩], 2⟩ "test" [] =
        [setKey (setKey [("name", Value.str "One")] "_id" (.int 1)) "_collection" (.str "test")] ∧
      (0 : Int) < 1 ∧
      (∀ r : Row, (inception_factory r).lookup "_id" = some (.int r.id) ∧
        (inception_factory r).lookup "_collection" = some (.str r.collection)) :=
  ⟨⟨rfl, rfl⟩,
    save_get_round_trip [("name", Value.str "One")] "test" rfl (Or.inl rfl) rfl⟩

def storeC7 : Store := ⟨[⟨1, "x", []⟩], 2⟩

/-- Counterexample to C7 as stated: the empty string names the default
collection, yet `get('')` falls into the fetch-everything branch
(`if collection:` is false), so with `C1 = ''` and `C2 = 'x'` the call
`get(C1)` returns a document whose `'_collection'` is `C2`. -/
theorem collection_scoping_cex :
    ("" : String) ≠ "x" ∧
      (Database.get storeC7 "" []).map (fun d => d.lookup "_collection") =
        [some (Value.str "x")] :=
  ⟨by decide, rfl⟩

/-- C7 amended: for every non-empty collection name `C1` and every
`C2 ≠ C1`, `get(C1)` — with or without a query — never returns a
document whose `'_collection'` value is `C2`. -/
theorem collection_scoping_nonempty (s : Store) (C1 C2 : String) (q : Query)
    (h1 : C1 ≠ "") (h2 : C1 ≠ C2) :
    ∀ d ∈ Database.get s C1 q, d.lookup "_collection" ≠ some (.str C2) := by
  intro d hd hcontra
  have hmem : d ∈ (s.rows.filter fun r => r.collection = C1).map inception_factory := by
    simp only [Database.get, if_pos h1, filter_results] at hd
    split at hd
    · exact hd
    · exact List.mem_of_mem_filter hd
  obtain ⟨r, hr, rfl⟩ := List.mem_map.mp hmem
  have hrc : r.collection = C1 := by simpa using (List.mem_filter.mp hr).2
  rw [inception_factory_collection r, hrc] at hcontra
  exact h2 (Value.str.inj (Option.some.inj hcontra))

theorem collection_scoping_nonempty_witness :
    (inception_factory ⟨1, "a", []⟩).lookup "_collection" ≠ some (.str "b") :=
  collection_scoping_nonempty ⟨[⟨1, "a", []⟩], 2⟩ "a" "b" [] (by decide) (by decide)
    (inception_factory ⟨1, "a", []⟩) (List.mem_singleton.mpr rfl)

theorem self_mem_insertById (rows : List Row) (r : Row) : r ∈ insertById rows r := by
  induction rows with
  | nil => simp [insertById]
  | cons x xs ih => by_cases h : r.id < x.id <;> simp [insertById, h, ih]

/-- Inversion of a successful `Database.save`: the caller's dictionary
comes back untouched, the resolved collection was bindable, and the
store either received an explicit-id upsert (truthy `'_id'`) or an
engine-assigned insert (absent or falsy `'_id'`). -/
theorem save_ok_cases (s : Store) (d : Doc) (c : String) (s' : Store) (d' : Doc)
    (h : Database.save s d c = .ok (s', d')) :
    d' = d ∧
      ∃ ct, sqliteText (resolveCollectionV d (.str c)) = .ok ct ∧
        ((∃ v i, d.lookup "_id" = some v ∧ truthy v = true ∧ pyInt v = some i ∧
            s' = ⟨upsertRow s.rows ⟨i, ct, dumpDict d⟩, max s.nextId (i + 1)⟩) ∨
          ((d.lookup "_id" = none ∨
              ∃ v, d.lookup "_id" = some v ∧ truthy v = false) ∧
            s' = ⟨insertById s.rows ⟨s.nextId, ct, dumpDict d⟩, s.nextId + 1⟩)) := by
  cases hlk : d.lookup "_id" with
  | none =>
      cases hct : sqliteText (resolveCollectionV d (.str c)) with
      | error e =>
          have hsave : Database.save s d c = .error e := by
            simp [Database.save, hlk, execInsertWithoutId, hct]
          rw [hsave] at h
          exact absurd h (by simp)
      | ok ct =>
          have hsave : Database.save s d c =
              .ok (⟨insertById s.rows ⟨s.nextId, ct, dumpDict d⟩, s.nextId + 1⟩, d) := by
            simp [Database.save, hlk, execInsertWithoutId, hct]
          rw [h] at hsave
          simp only [Except.ok.injEq, Prod.mk.injEq] at hsave
          exact ⟨hsave.2, ct, rfl, Or.inr ⟨Or.inl rfl, hsave.1⟩⟩
  | some v =>
      cases htr : truthy v with
      | false =>
          cases hct : sqliteText (resolveCollectionV d (.str c)) with
          | error e =>
              have hsave : Database.save s d c = .error e := by
                simp [Database.save, hlk, htr, execInsertWithoutId, hct]
              rw [hsave] at h
              exact absurd h (by simp)
          | ok ct =>
              have hsave : Database.save s d c =
                  .ok (⟨insertById s.rows ⟨s.nextId, ct, dumpDict d⟩, s.nextId + 1⟩, d) := by
                simp [Database.save, hlk, htr, execInsertWithoutId, hct]
              rw [h] at hsave
              simp only [Except.ok.injEq, Prod.mk.injEq] at hsave
              exact ⟨hsave.2, ct, rfl, Or.inr ⟨Or.inr ⟨v, rfl, htr⟩, hsave.1⟩⟩
      | true =>
          cases hpi : pyInt v with
          | none =>
              have hsave : Database.save s d c =
                  .error "TypeError: int() argument has no integer value" := by
                simp [Database.save, hlk, htr, hpi]
              rw [hsave] at h
              exact absurd h (by simp)
          | some i =>
              cases hct : sqliteText (resolveCollectionV d (.str c)) with
              | error e =>
                  have hsave : Database.save s d c = .error e := by
                    simp [Database.save, hlk, htr, hpi, execInsertWithId, hct]
                  rw [hsave] at h
                  exact absurd h (by simp)
              | ok ct =>
                  have hsave : Database.save s d c =
                      .ok (⟨upsertRow s.rows ⟨i, ct, dumpDict d⟩, max s.nextId (i + 1)⟩, d) := by
                    simp [Database.save, hlk, htr, hpi, execInsertWithId, hct]
                  rw [h] at hsave
                  simp only [Except.ok.injEq, Prod.mk.injEq] at hsave
                  exact ⟨hsave.2, ct, rfl, Or.inl ⟨v, i, rfl, htr, hpi, hsave.1⟩⟩

def docC4 : Doc := [("_id", Value.int 1), ("x", Value.str "y")]

/-- Counterexample to C4 as stated: `save` serializes the whole
dictionary with `json.dumps(document, ...)`, so the stored row's blob
still contains the `'_id'` item — the id is duplicated inside the blob
rather than excluded from it. -/
theorem blob_keeps_id_cex :
    Database.save Store.empty docC4 "c" = .ok (⟨[⟨1, "c", docC4⟩], 2⟩, docC4) ∧
      docC4.lookup "_id" = some (Value.int 1) :=
  ⟨rfl, rfl⟩

/-- C4 amended: the blob written to the row's `document` column is the
JSON encoding of the entire dictionary — the bookkeeping keys `'_id'`
and `'_collection'` are not stripped, so a truthy `'_id'` is stored both
in the row's primary-key column and inside the blob. -/
theorem blob_is_whole_document (s : Store) (d : Doc) (c : String)
    (s' : Store) (d' : Doc) (h : Database.save s d c = .ok (s', d')) :
    ∃ r ∈ s'.rows, r.document = dumpDict d := by
  obtain ⟨-, ct, -, hcase⟩ := save_ok_cases s d c s' d' h
  rcases hcase with ⟨v, i, -, -, -, hs⟩ | ⟨-, hs⟩
  · exact ⟨⟨i, ct, dumpDict d⟩, by rw [hs]; exact self_mem_upsertRow _ _, rfl⟩
  · exact ⟨⟨s.nextId, ct, dumpDict d⟩, by rw [hs]; exact self_mem_insertById _ _, rfl⟩

theorem blob_is_whole_document_witness :
    ∃ r ∈ (⟨[⟨1, "c", docC4⟩], 2⟩ : Store).rows, r.document = dumpDict docC4 :=
  blob_is_whole_document Store.empty docC4 "c" ⟨[⟨1, "c", docC4⟩], 2⟩ docC4 rfl

/-- Counterexample to C5 as stated: a document holding a value with no
defined encoding does not fail the save. `inception_serialise` has no
branch for non-datetime objects and returns `None`, which `json.dumps`
happily encodes as JSON `null` — the call succeeds and stores `null`. -/
theorem unsupported_value_saves_cex :
    Database.save Store.empty [("x", Value.other "set instance")] "c" =
      .ok (⟨[⟨1, "c", [("x", Value.null)]⟩], 2⟩, [("x", Value.other "set instance")]) :=
  rfl

/-- C5 amended: during `save` (and the identical loop body of
`save_all`), a datetime value is encoded as its ISO-8601 string and
reads back as a plain string, not a datetime; a value of any other type
with no defined encoding is silently encoded as JSON `null`, and the
save succeeds rather than failing with a serialization error. -/
theorem serialisation_amended (iso tag C : String) :
    (∃ s₁, Database.save Store.empty [("when", Value.dt iso)] C =
        .ok (s₁, [("when", Value.dt iso)]) ∧
      Database.get s₁ C [] =
        [[("when", Value.str iso), ("_id", Value.int 1), ("_collection", Value.str C)]]) ∧
    (∃ s₂, Database.save Store.empty [("x", Value.other tag)] C =
        .ok (s₂, [("x", Value.other tag)]) ∧
      (s₂.rows.map fun r => r.document) = [[("x", Value.null)]]) := by
  constructor
  · refine ⟨⟨[⟨1, C, [("when", Value.str iso)]⟩], 2⟩, ?_, ?_⟩
    · have hlk : ([("when", Value.dt iso)] : Doc).lookup "_id" = none := rfl
      have hres : resolveCollectionV [("when", Value.dt iso)] (.str C) = .str C :=
        resolveCollectionV_compatible _ C (Or.inl rfl)
      simp [Database.save, hlk, hres, execInsertWithoutId, sqliteText, Store.empty,
        insertById, dumpDict, dumpValue, inception_serialise]
    · by_cases hC : C = "" <;>
        simp [Database.get, hC, inception_factory, setKey]
  · refine ⟨⟨[⟨1, C, [("x", Value.null)]⟩], 2⟩, ?_, ?_⟩
    · have hlk : ([("x", Value.other tag)] : Doc).lookup "_id" = none := rfl
      have hres : resolveCollectionV [("x", Value.other tag)] (.str C) = .str C :=
        resolveCollectionV_compatible _ C (Or.inl rfl)
      simp [Database.save, hlk, hres, execInsertWithoutId, sqliteText, Store.empty,
        insertById, dumpDict, dumpValue, inception_serialise]
    · rfl

/-- Collection resolution as the claim words it: the in-document
`'_collection'` value whenever that key is present (regardless of its
value), else the collection argument (the empty string standing in for
an absent argument, per the claim's final default). -/
def resolveCollectionClaim (d : Doc) (c : String) : Value :=
  match d.lookup "_collection" with
  | some v => v
  | none => .str c

/-- Counterexample to C3 as stated: the code tests truthiness, not
presence. A present-but-empty `'_collection'` loses to the argument
(`'x'`, where the claim demands the in-document `''`), and saving a
document with a present-but-zero `'_id'` performs an insert — the store
assigns id 1 — instead of the upsert of row 0 the claim requires. -/
theorem save_resolution_cex :
    resolveCollectionV [("_collection", Value.str "")] (.str "x") = Value.str "x" ∧
      resolveCollectionClaim [("_collection", Value.str "")] "x" = Value.str "" ∧
      Value.str "x" ≠ Value.str "" ∧
      Database.save Store.empty [("_id", Value.int 0)] "c" =
        .ok (⟨[⟨1, "c", [("_id", Value.int 0)]⟩], 2⟩, [("_id", Value.int 0)]) ∧
      (⟨[⟨1, "c", [("_id", Value.int 0)]⟩], 2⟩ : Store).rows.map (fun r => r.id) = [1] :=
  ⟨rfl, rfl, by simp, rfl, rfl⟩

/-- C3 amended: `save` resolves the effective collection as
`document['_collection']` when that key is present with a truthy value,
else the `collection` argument, else the empty string (the argument
cases collapse because an absent argument is the empty string); and it
resolves the row id from `document['_id']` when that key is present with
a truthy value — upserting the row with that id, which a subsequent
`get_by_id` returns — while an absent key or a falsy value (e.g. `0`)
causes an insert in which the store assigns the new id. -/
theorem save_resolution_amended (s : Store) (d : Doc) (c : String) :
    (∀ v, d.lookup "_collection" = some v → truthy v = true →
        resolveCollectionV d (.str c) = v) ∧
      (∀ v, d.lookup "_collection" = some v → truthy v = false →
        resolveCollectionV d (.str c) = .str c) ∧
      (d.lookup "_collection" = none → resolveCollectionV d (.str c) = .str c) ∧
      (∀ i ct, d.lookup "_id" = some (.int i) → i ≠ 0 →
        sqliteText (resolveCollectionV d (.str c)) = .ok ct →
        Database.save s d c =
            .ok (⟨upsertRow s.rows ⟨i, ct, dumpDict d⟩, max s.nextId (i + 1)⟩, d) ∧
          Database.get_by_id
              ⟨upsertRow s.rows ⟨i, ct, dumpDict d⟩, max s.nextId (i + 1)⟩ i =
            some (inception_factory ⟨i, ct, dumpDict d⟩)) ∧
      (∀ ct, (d.lookup "_id" = none ∨ d.lookup "_id" = some (.int 0)) →
        sqliteText (resolveCollectionV d (.str c)) = .ok ct →
        Database.save s d c =
          .ok (⟨insertById s.rows ⟨s.nextId, ct, dumpDict d⟩, s.nextId + 1⟩, d)) := by
  refine ⟨?_, ?_, ?_, ?_, ?_⟩
  · intro v hv htr
    simp [resolveCollectionV, hv, htr]
  · intro v hv htr
    simp only [resolveCollectionV, hv, htr, Bool.false_eq_true, if_false]
    by_cases hc : c = "" <;> simp [truthy, hc]
  · intro hnone
    simp only [resolveCollectionV, hnone]
    by_cases hc : c = "" <;> simp [truthy, hc]
  · intro i ct hv hi hct
    have htr : truthy (Value.int i) = true := by simp [truthy, hi]
    have hpi : pyInt (Value.int i) = some i := rfl
    constructor
    · simp [Database.save, hv, htr, hpi, execInsertWithId, hct]
    · simp only [Database.get_by_id]
      rw [show (⟨i, ct, dumpDict d⟩ : Row) = ⟨(⟨i, ct, dumpDict d⟩ : Row).id, ct, dumpDict d⟩ from rfl] at *
      rw [find?_upsertRow_self s.rows ⟨i, ct, dumpDict d⟩]
      rfl
  · intro ct hv hct
    rcases hv with hv | hv
    · simp [Database.save, hv, execInsertWithoutId, hct]
    · have htr : truthy (Value.int 0) = false := by simp [truthy]
      simp [Database.save, hv, htr, execInsertWithoutId, hct]

theorem save_resolution_amended_witness :
    resolveCollectionV [("_collection", Value.str "mid"), ("_id", Value.int 5)]
        (.str "arg") = Value.str "mid" ∧
      Database.save Store.empty
          [("_collection", Value.str "mid"), ("_id", Value.int 5)] "arg" =
        .ok (⟨[⟨5, "mid", [("_collection", Value.str "mid"), ("_id", Value.int 5)]⟩], 6⟩,
          [("_collection", Value.str "mid"), ("_id", Value.int 5)]) ∧
      resolveCollectionV [("x", Value.int 9)] (.str "arg") = Value.str "arg" ∧
      Database.save Store.empty [("x", Value.int 9)] "arg" =
        .ok (⟨[⟨1, "arg", [("x", Value.int 9)]⟩], 2⟩, [("x", Value.int 9)]) := by
  have h₁ := save_resolution_amended Store.empty
    [("_collection", Value.str "mid"), ("_id", Value.int 5)] "arg"
  have h₂ := save_resolution_amended Store.empty [("x", Value.int 9)] "arg"
  exact ⟨h₁.1 _ rfl rfl,
    (h₁.2.2.2.1 5 "mid" rfl (by decide) rfl).1,
    h₂.2.2.1 rfl,
    h₂.2.2.2.2 "arg" (Or.inl rfl) rfl⟩

def docsC6 : List Doc :=
  [[("_collection", Value.str "a")],
   [("_collection", Value.str "b")],
   [("n", Value.int 3)]]

/-- Counterexample to C6 as stated: the loop variable is reassigned to
every document's resolved collection, not only to defaulted ones, so
with documents resolving to `a`, then `b`, then nothing, the third
document lands in `b` — the resolved collection of its immediate
predecessor — not in `a`, the first document's resolved collection that
the claim says becomes the fallback for later documents lacking one. -/
theorem save_all_fallback_cex :
    Database.save_all Store.empty docsC6 "" =
        .ok (⟨[⟨1, "a", [("_collection", Value.str "a")]⟩,
               ⟨2, "b", [("_collection", Value.str "b")]⟩,
               ⟨3, "b", [("n", Value.int 3)]⟩], 4⟩, docsC6) ∧
      ("b" : String) ≠ "a" :=
  ⟨rfl, by decide⟩

/-- The amended description of the fallback: each document resolves to
its own truthy in-document string collection if any, else to the
resolved collection of the immediately preceding document (the reused
loop variable), the chain starting from the call argument. -/
def resolveCollectionText (d : Doc) (c : String) : String :=
  match d.lookup "_collection" with
  | some (.str t) => if t ≠ "" then t else c
  | _ => c

/-- The collection texts the amended chain assigns to each document in
turn. -/
def assignedCollectionTexts (c : String) : List Doc → List String
  | [] => []
  | d :: ds =>
      resolveCollectionText d c ::
        assignedCollectionTexts (resolveCollectionText d c) ds

theorem resolveCollectionV_str (d : Doc) (c : String)
    (h : d.lookup "_collection" = none ∨
      ∃ t, d.lookup "_collection" = some (.str t)) :
    resolveCollectionV d (.str c) = .str (resolveCollectionText d c) := by
  rcases h with h | ⟨t, h⟩
  · simp only [resolveCollectionV, resolveCollectionText, h]
    by_cases hc : c = "" <;> simp [truthy, hc]
  · simp only [resolveCollectionV, resolveCollectionText, h]
    by_cases ht : t = ""
    · subst ht
      by_cases hc : c = "" <;> simp [truthy, hc]
    · simp [truthy, ht]

/-- C6 amended: in `save_all` the collection fallback is the single loop
variable reused across iterations, so each document lacking a (truthy)
in-document collection receives the resolved collection of the document
immediately before it — the first document's resolved collection reaches
a later document only through a chain of documents that all lacked one.
For id-less documents with string (or absent) `'_collection'` values on
a well-formed store, the rows written carry exactly the chained
collection texts, in order. -/
theorem save_all_fallback_chain (ds : List Doc) (s : Store) (c : String)
    (hwf : Store.wf s)
    (hids : ∀ d ∈ ds, d.lookup "_id" = none)
    (hcols : ∀ d ∈ ds, d.lookup "_collection" = none ∨
        ∃ t, d.lookup "_collection" = some (.str t)) :
    ∃ s', Database.save_all s ds c = .ok (s', ds) ∧
      s'.rows.map (fun r => r.collection) =
        s.rows.map (fun r => r.collection) ++ assignedCollectionTexts c ds := by
  induction ds generalizing s c with
  | nil => exact ⟨s, rfl, by simp [assignedCollectionTexts]⟩
  | cons d rest ih =>
      have hd_id : d.lookup "_id" = none := hids d (List.mem_cons_self _ _)
      have hres : resolveCollectionV d (.str c) = .str (resolveCollectionText d c) :=
        resolveCollectionV_str d c (hcols d (List.mem_cons_self _ _))
      have happend :
          insertById s.rows ⟨s.nextId, resolveCollectionText d c, dumpDict d⟩ =
            s.rows ++ [⟨s.nextId, resolveCollectionText d c, dumpDict d⟩] :=
        insertById_append _ _ fun x hx => hwf x hx
      have hwf₁ : Store.wf (⟨insertById s.rows
          ⟨s.nextId, resolveCollectionText d c, dumpDict d⟩, s.nextId + 1⟩ : Store) := by
        intro r hr
        rw [happend] at hr
        rcases List.mem_append.mp hr with hr | hr
        · have := hwf r hr
          simp only at this ⊢
          omega
        · simp only [List.mem_singleton] at hr
          subst hr
          simp only
          omega
      obtain ⟨s', hloop, hmap⟩ :=
        ih ⟨insertById s.rows ⟨s.nextId, resolveCollectionText d c, dumpDict d⟩,
            s.nextId + 1⟩ (resolveCollectionText d c) hwf₁
          (fun x hx => hids x (List.mem_cons_of_mem d hx))
          (fun x hx => hcols x (List.mem_cons_of_mem d hx))
      refine ⟨s', ?_, ?_⟩
      · have hstep : Database.save_all s (d :: rest) c =
            match Database.save_all
                (⟨insertById s.rows ⟨s.nextId, resolveCollectionText d c, dumpDict d⟩,
                  s.nextId + 1⟩ : Store) rest (resolveCollectionText d c) with
            | .error e => .error e
            | .ok (s'', docs) => .ok (s'', d :: docs) := by
          simp [Database.save_all, saveAllLoop, hd_id, hres, execInsertWithoutId, sqliteText]
        rw [hstep, hloop]
      · rw [hmap, happend]
        simp [assignedCollectionTexts]

def docsC6W : List Doc := [[("k", Value.int 1)], [("_collection", Value.str "u")], []]

theorem save_all_fallback_chain_witness :
    ∃ s', Database.save_all Store.empty docsC6W "t" = .ok (s', docsC6W) ∧
      s'.rows.map (fun r => r.collection) =
        Store.empty.rows.map (fun r => r.collection) ++
          assignedCollectionTexts "t" docsC6W :=
  save_all_fallback_chain docsC6W Store.empty "t"
    (by intro r hr; simp [Store.empty] at hr)
    (by
      intro d hd
      simp only [docsC6W, List.mem_cons, List.not_mem_nil, or_false] at hd
      rcases hd with rfl | rfl | rfl <;> rfl)
    (by
      intro d hd
      simp only [docsC6W, List.mem_cons, List.not_mem_nil, or_false] at hd
      rcases hd with rfl | rfl | rfl
      · exact Or.inl rfl
      · exact Or.inr ⟨"u", rfl⟩
      · exact Or.inl rfl)

def storeC9 : Store := ⟨[⟨1, "test", [("name", Value.str "One")]⟩], 2⟩

def queryC9 : Query :=
  [("name", Matcher.pred fun v =>
    match v with
    | .str s => s = "One"
    | _ => false)]

/-- C9, evaluated at the failing input: on the same stored rows and the
same arguments, the SQLite-backed `get` decodes and then filters,
returning the matching document, while the MySQL-backed `get` runs the
filter on the raw row tuples before decoding and raises
`AttributeError` (`filter_results` calls `.get` on a tuple); `get_by_id`
likewise decodes on SQLite but raises on MySQL, whose override iterates
the raw row value. Only without a query do the two backends agree. -/
theorem mysql_filter_on_raw_rows_bug :
    Database.get storeC9 "test" queryC9 =
        [[("name", Value.str "One"), ("_id", Value.int 1),
          ("_collection", Value.str "test")]] ∧
      MySQLDatabase.get storeC9 "test" queryC9 =
        .error "AttributeError: tuple object has no attribute get" ∧
      Database.get_by_id storeC9 1 =
        some [("name", Value.str "One"), ("_id", Value.int 1),
          ("_collection", Value.str "test")] ∧
      MySQLDatabase.get_by_id storeC9 1 =
        .error "TypeError: row element is not subscriptable" ∧
      (∀ (s : Store) (c : String),
        MySQLDatabase.get s c [] = .ok (Database.get s c [])) :=
  ⟨rfl, rfl, rfl, rfl, fun _ _ => rfl⟩

theorem saveAllLoop_docs (ds : List Doc) :
    ∀ (s : Store) (coll : Value) (s' : Store) (ds' : List Doc),
      saveAllLoop s coll ds = .ok (s', ds') → ds' = ds := by
  induction ds with
  | nil =>
      intro s coll s' ds' h
      simp only [saveAllLoop, Except.ok.injEq, Prod.mk.injEq] at h
      exact h.2.symm
  | cons d rest ih =>
      intro s coll s' ds' h
      simp only [saveAllLoop] at h
      split at h
      · exact absurd h (by simp)
      · split at h
        · exact absurd h (by simp)
        · rename_i s'' docs heq
          simp only [Except.ok.injEq, Prod.mk.injEq] at h
          rw [← h.2, ih _ _ _ _ heq]

/-- C10: neither `save` nor `save_all` mutates the caller's
dictionaries. The embedding threads the passed-in documents through
every step of the Python bodies — which only ever read them (`.get`,
`json.dumps`) — and both operations hand them back exactly as passed;
in particular a newly assigned row id is never written back into a
document. -/
theorem save_does_not_mutate_documents (s : Store) (c : String) :
    (∀ d s' d', Database.save s d c = .ok (s', d') → d' = d) ∧
      (∀ ds s' ds', Database.save_all s ds c = .ok (s', ds') → ds' = ds) :=
  ⟨fun d s' d' h => (save_ok_cases s d c s' d' h).1,
    fun ds s' ds' h => saveAllLoop_docs ds s (.str c) s' ds' h⟩

theorem save_does_not_mutate_documents_witness :
    [("k", Value.int 3)] = [("k", Value.int 3)] ∧
      ([[("k", Value.int 3)], [("m", Value.str "s")]] : List Doc) =
        [[("k", Value.int 3)], [("m", Value.str "s")]] := by
  have h := save_does_not_mutate_documents Store.empty "w"
  constructor
  · exact h.1 [("k", Value.int 3)]
      ⟨[⟨1, "w", [("k", Value.int 3)]⟩], 2⟩ [("k", Value.int 3)] rfl
  · exact h.2 [[("k", Value.int 3)], [("m", Value.str "s")]]
      ⟨[⟨1, "w", [("k", Value.int 3)]⟩, ⟨2, "w", [("m", Value.str "s")]⟩], 3⟩
      [[("k", Value.int 3)], [("m", Value.str "s")]] rfl
